import Mathlib

/-!
# Verification of the CoAP worker-pool dispatcher and resource manager

A shallow embedding of `source/coap_core/coap_worker/coap_worker_pool.py`
and `source/coap_core/coap_resource/resource_manager.py` from the
TUIASI-AC-IoT CoAP endpoint repository, together with theorems settling
the specification claims about deduplication, ingress filtering, worker
selection and lifecycle, token generation, RST handling, the shared-work
map removal operations, and the resource registry.

Collaborator modules that are not part of the two embedded files
(the packet record with its work identifiers, the enum validity checks,
the packet templates, and the transaction pool) are modelled from the
specification; each such definition carries a doc comment saying so.
-/

set_option autoImplicit false

namespace CoapCore

/-- A remote endpoint: IP address and port, attached to a packet in memory. -/
abbrev Peer := String × Nat

/-- Modelled from the spec: the in-memory packet record produced by
`CoapPacket.decode` (the codec module is not among the embedded files).
Fields follow spec §3: version, type, code, message_id, token, options
(ordered number/value pairs), payload, and the remote endpoint.
`needsInternalComputation` mirrors the attribute consulted by
`handle_internal_task`. -/
structure CoapPacket where
  version : Nat
  messageType : Nat
  code : Nat
  messageId : Nat
  token : List Nat
  options : List (Nat × Nat)
  payload : String
  senderIpPort : Peer
  needsInternalComputation : Bool := false
deriving DecidableEq, Repr

namespace CoapType

/-- Modelled from the spec: CoAP message types CON/NON/ACK/RST as wire values. -/
def CON : Nat := 0

/-- Modelled from the spec: the NON message type wire value. -/
def NON : Nat := 1

/-- Modelled from the spec: the ACK message type wire value. -/
def ACK : Nat := 2

/-- Modelled from the spec: the RST message type wire value. -/
def RST : Nat := 3

/-- Modelled from the spec: `CoapType.is_valid`, true exactly on the four
message types CON, NON, ACK, RST. -/
def is_valid (t : Nat) : Bool := t = CON ∨ t = NON ∨ t = ACK ∨ t = RST

end CoapType

namespace CoapCodeFormat

/-- Modelled from the spec: code 0.00 EMPTY. -/
def EMPTY : Nat := 0

/-- Modelled from the spec: method code 0.01 GET. -/
def GET : Nat := 1

/-- Modelled from the spec: method code 0.02 POST. -/
def POST : Nat := 2

/-- Modelled from the spec: method code 0.03 PUT. -/
def PUT : Nat := 3

/-- Modelled from the spec: method code 0.04 DELETE. -/
def DELETE : Nat := 4

/-- Modelled from the spec: method code 0.05 FETCH. -/
def FETCH : Nat := 5

/-- Modelled from the spec: response code 2.01 CREATED (class 2, detail 1). -/
def SUCCESS_CREATED : Nat := 2 * 32 + 1

/-- Modelled from the spec: response code 2.02 DELETED. -/
def SUCCESS_DELETED : Nat := 2 * 32 + 2

/-- Modelled from the spec: response code 2.03 VALID, used as the ACK
carrying a block id. -/
def SUCCESS_VALID : Nat := 2 * 32 + 3

/-- Modelled from the spec: response code 2.04 CHANGED. -/
def SUCCESS_CHANGED : Nat := 2 * 32 + 4

/-- Modelled from the spec: response code 2.05 CONTENT. -/
def SUCCESS_CONTENT : Nat := 2 * 32 + 5

/-- Modelled from the spec: response code 5.00 INTERNAL_SERVER_ERROR. -/
def SERVER_ERROR_INTERNAL_SERVER_ERROR : Nat := 5 * 32

/-- Modelled from the spec: `CoapCodeFormat.is_valid`, membership in the
set of codes the protocol core uses (spec §6). -/
def is_valid (c : Nat) : Bool :=
  c = EMPTY ∨ c = GET ∨ c = POST ∨ c = PUT ∨ c = DELETE ∨ c = FETCH ∨
  c = SUCCESS_CREATED ∨ c = SUCCESS_DELETED ∨ c = SUCCESS_VALID ∨
  c = SUCCESS_CHANGED ∨ c = SUCCESS_CONTENT ∨
  c = SERVER_ERROR_INTERNAL_SERVER_ERROR

/-- Modelled from the spec: `CoapCodeFormat.is_method`, true on the request
method codes 0.01 GET … 0.05 FETCH. -/
def is_method (c : Nat) : Bool :=
  c = GET ∨ c = POST ∨ c = PUT ∨ c = DELETE ∨ c = FETCH

/-- Modelled from the spec: `CoapCodeFormat.is_success`, true on class-2
response codes. -/
def is_success (c : Nat) : Bool := c / 32 = 2

end CoapCodeFormat

namespace CoapOptionDelta

/-- Modelled from the spec: option number Observe. -/
def OBSERVE : Nat := 6

/-- Modelled from the spec: option number Location-Path. -/
def LOCATION_PATH : Nat := 8

/-- Modelled from the spec: option number Uri-Path. -/
def URI_PATH : Nat := 11

/-- Modelled from the spec: option number Content-Format. -/
def CONTENT_FORMAT : Nat := 12

/-- Modelled from the spec: option number Block2. -/
def BLOCK2 : Nat := 23

/-- Modelled from the spec: option number Block1. -/
def BLOCK1 : Nat := 27

/-- Modelled from the spec: option number Size2. -/
def SIZE2 : Nat := 28

/-- Modelled from the spec: option number Size1. -/
def SIZE1 : Nat := 60

/-- Modelled from the spec: `CoapOptionDelta.is_valid` over a packet's
options: every option number is one the core knows (spec §3). -/
def is_valid (options : List (Nat × Nat)) : Bool :=
  options.all (fun o =>
    o.1 = OBSERVE ∨ o.1 = LOCATION_PATH ∨ o.1 = URI_PATH ∨
    o.1 = CONTENT_FORMAT ∨ o.1 = BLOCK2 ∨ o.1 = BLOCK1 ∨
    o.1 = SIZE2 ∨ o.1 = SIZE1)

end CoapOptionDelta

namespace CoapPacket

/-- Modelled from the spec: `short_term_work_id` = (remote_endpoint, message_id). -/
def short_term_work_id (p : CoapPacket) : Peer × Nat :=
  (p.senderIpPort, p.messageId)

/-- Modelled from the spec: `general_work_id` = (remote_endpoint, token). -/
def general_work_id (p : CoapPacket) : Peer × List Nat :=
  (p.senderIpPort, p.token)

/-- Modelled from the spec: whether the packet carries a Block1 or Block2 option. -/
def has_option_block (p : CoapPacket) : Bool :=
  p.options.any (fun o => o.1 = CoapOptionDelta.BLOCK2 ∨ o.1 = CoapOptionDelta.BLOCK1)

/-- Modelled from the spec: the block option number of interest for the
long-term work id (Block2 when present, else Block1). -/
def block_option_code (p : CoapPacket) : Nat :=
  if p.options.any (fun o => o.1 = CoapOptionDelta.BLOCK2) then
    CoapOptionDelta.BLOCK2
  else
    CoapOptionDelta.BLOCK1

/-- Modelled from the spec: `long_term_work_id` =
(remote_endpoint, token, option_code_of_interest). -/
def long_term_work_id (p : CoapPacket) : Peer × List Nat × Nat :=
  (p.senderIpPort, p.token, block_option_code p)

/-- Modelled from the spec: `get_block_id`, the NUM field of the block
option carried by the packet (the acknowledged block identifier). -/
def get_block_id (p : CoapPacket) : Nat :=
  match p.options.find? (fun o =>
      decide (o.1 = CoapOptionDelta.BLOCK2 ∨ o.1 = CoapOptionDelta.BLOCK1)) with
  | some o => o.2 / 16
  | none => 0

end CoapPacket

/-- The short-term work-id key type: (peer, message_id). -/
abbrev ShortId := Peer × Nat

/-- The long-term work-id key type: (peer, token, block option number). -/
abbrev LongId := Peer × List Nat × Nat

/-- The general work-id key type: (peer, token). -/
abbrev GeneralId := Peer × List Nat

section AssocMap

variable {κ : Type} [DecidableEq κ] {β : Type}

/-- Python `k in d` on a dict modelled as an association list with unique keys. -/
def mapContains : List (κ × β) → κ → Bool
  | [], _ => false
  | e :: rest, k => e.1 = k || mapContains rest k

/-- Python `d[k]` lookup, `none` when absent. -/
def mapLookup : List (κ × β) → κ → Option β
  | [], _ => none
  | e :: rest, k => if e.1 = k then some e.2 else mapLookup rest k

/-- Python `d[k] = v`: update in place when the key exists, append otherwise. -/
def mapInsert : List (κ × β) → κ → β → List (κ × β)
  | [], k, v => [(k, v)]
  | e :: rest, k, v =>
    if e.1 = k then (k, v) :: rest else e :: mapInsert rest k v

/-- Python `d.pop(k)`: drop the entry with key `k` (keys are unique). -/
def mapPop : List (κ × β) → κ → List (κ × β)
  | [], _ => []
  | e :: rest, k => if e.1 = k then mapPop rest k else e :: mapPop rest k

end AssocMap

/-- The two shared-work maps owned by `CoapWorkerPool.__init__`:
`_short_term_shared_work` and `_long_term_shared_work`, each mapping a
work id to the time it was recorded. -/
structure SharedWorkState where
  shortTermSharedWork : List (ShortId × Nat)
  longTermSharedWork : List (LongId × Nat)
deriving DecidableEq, Repr

/-- `CoapWorkerPool.remove_short_term_work`: pop the key from the
short-term map when present, otherwise do nothing. -/
def remove_short_term_work (st : SharedWorkState) (workData : ShortId) :
    SharedWorkState :=
  if mapContains st.shortTermSharedWork workData then
    { st with shortTermSharedWork := mapPop st.shortTermSharedWork workData }
  else st

/-- `CoapWorkerPool.remove_long_term_work`: pop the key from the
long-term map when present, otherwise do nothing. -/
def remove_long_term_work (st : SharedWorkState) (workData : LongId) :
    SharedWorkState :=
  if mapContains st.longTermSharedWork workData then
    { st with longTermSharedWork := mapPop st.longTermSharedWork workData }
  else st

/-- The long-term work id `deduplication_filter` computes for a packet:
present exactly when the packet's code is a success code and the packet
carries a Block option (lines 140–147 of `coap_worker_pool.py`). -/
def computed_long_term_work (packet : CoapPacket) : Option LongId :=
  if CoapCodeFormat.is_success packet.code && packet.has_option_block then
    some packet.long_term_work_id
  else
    none

/-- Result of one iteration of the deduplication filter: the updated
shared-work maps and the packet submitted to a worker, when any. -/
structure DedupResult where
  state : SharedWorkState
  submitted : Option CoapPacket
deriving DecidableEq, Repr

/-- One iteration of `CoapWorkerPool.deduplication_filter` on a packet
taken from the valid-packet queue (lines 132–159): compute the work ids,
submit to a worker and record exactly one id when both ids are fresh,
otherwise drop the packet as a duplicate.  The membership test on the
long-term map follows Python: `None` is never a key of that dict, so a
packet without a computed long-term id passes that half of the test. -/
def deduplication_step (st : SharedWorkState) (now : Nat)
    (packet : CoapPacket) : DedupResult :=
  let work := packet.short_term_work_id
  let longTermWork := computed_long_term_work packet
  let longAbsent :=
    match longTermWork with
    | none => true
    | some l => !mapContains st.longTermSharedWork l
  if !mapContains st.shortTermSharedWork work && longAbsent then
    let st' :=
      match longTermWork with
      | some l =>
        { st with longTermSharedWork := mapInsert st.longTermSharedWork l now }
      | none =>
        { st with shortTermSharedWork := mapInsert st.shortTermSharedWork work now }
    { state := st', submitted := some packet }
  else
    { state := st, submitted := none }

/-- The deduplication filter applied to a whole list of packets drained in
FIFO order from the valid-packet queue, collecting the submitted packets. -/
def dedup_run (st : SharedWorkState) (now : Nat) :
    List CoapPacket → SharedWorkState × List CoapPacket
  | [] => (st, [])
  | p :: ps =>
    let r := deduplication_step st now p
    let rest := dedup_run r.state now ps
    (rest.1, (match r.submitted with | some q => [q] | none => []) ++ rest.2)

/-- Modelled from the spec: MAX_RETRANSMIT (recommended 4). -/
def MAX_RETRANSMIT : Nat := 4

/-- Modelled from the spec: one outstanding CON transaction — the stored
packet, the retransmission count, the next deadline, and the current
retransmission interval (doubled on each resend). -/
structure CoapTransaction where
  packet : CoapPacket
  retransmissions : Nat
  deadline : Nat
  interval : Nat
deriving DecidableEq, Repr

/-- Modelled from the spec: the process-wide transaction pool — the live
per-CON transactions, the set of live overall transactions (keyed by
`general_work_id`), and the set of overall transactions whose failure
flag is set. -/
structure CoapTransactionPool where
  transactions : List CoapTransaction
  overalls : List GeneralId
  failedOveralls : List GeneralId
deriving DecidableEq, Repr

namespace CoapTransactionPool

/-- Modelled from the spec: the empty transaction pool at startup. -/
def empty : CoapTransactionPool := ⟨[], [], []⟩

/-- Modelled from the spec: `ACK_TIMEOUT` base interval in seconds. -/
def ACK_TIMEOUT : Nat := 2

/-- Modelled from the spec: `add_transaction` records a CON awaiting ACK
with retransmission counter 0 and an initial deadline, and registers the
overall transaction for its `general_work_id` when not yet present. -/
def add_transaction (pool : CoapTransactionPool) (now : Nat)
    (packet : CoapPacket) : CoapTransactionPool :=
  { pool with
    transactions :=
      pool.transactions ++ [⟨packet, 0, now + ACK_TIMEOUT, ACK_TIMEOUT⟩],
    overalls :=
      if pool.overalls.contains packet.general_work_id then pool.overalls
      else pool.overalls ++ [packet.general_work_id] }

/-- Modelled from the spec: `finish_transaction` looks a transaction up by
(remote_endpoint, message_id) and removes it; unknown ACKs are dropped. -/
def finish_transaction (pool : CoapTransactionPool) (packet : CoapPacket) :
    CoapTransactionPool :=
  { pool with
    transactions := pool.transactions.filter
      (fun t => t.packet.short_term_work_id ≠ packet.short_term_work_id) }

/-- Modelled from the spec: `is_overall_transaction_failed` tests the
failure flag of the overall transaction keyed by the packet's
`general_work_id`. -/
def is_overall_transaction_failed (pool : CoapTransactionPool)
    (packet : CoapPacket) : Bool :=
  pool.failedOveralls.contains packet.general_work_id

/-- Modelled from the spec: `set_overall_transaction_failure` sets the
failure flag for the packet's `general_work_id`; per the cancellation
policy, overall failure cancels all child transactions immediately, so
they are removed and never retransmitted again. -/
def set_overall_transaction_failure (pool : CoapTransactionPool)
    (packet : CoapPacket) : CoapTransactionPool :=
  { pool with
    failedOveralls :=
      if pool.failedOveralls.contains packet.general_work_id then
        pool.failedOveralls
      else pool.failedOveralls ++ [packet.general_work_id],
    transactions := pool.transactions.filter
      (fun t => t.packet.general_work_id ≠ packet.general_work_id) }

/-- Modelled from the spec: `finish_overall_transaction` removes the
overall transaction keyed by the packet's `general_work_id`. -/
def finish_overall_transaction (pool : CoapTransactionPool)
    (packet : CoapPacket) : CoapTransactionPool :=
  { pool with
    overalls := pool.overalls.filter (fun g => g ≠ packet.general_work_id) }

/-- Modelled from the spec: how `solve_transactions` treats one
transaction at time `now`: keep it untouched when its deadline is in the
future; resend with doubled interval and incremented counter while the
budget allows; otherwise mark its overall failed and drop it. -/
def solve_one (now : Nat) (acc : CoapTransactionPool × List CoapPacket)
    (t : CoapTransaction) : CoapTransactionPool × List CoapPacket :=
  if t.deadline ≤ now then
    if t.retransmissions < MAX_RETRANSMIT then
      ({ acc.1 with transactions := acc.1.transactions ++
          [⟨t.packet, t.retransmissions + 1, now + 2 * t.interval,
            2 * t.interval⟩] },
        acc.2 ++ [t.packet])
    else
      (set_overall_transaction_failure acc.1 t.packet, acc.2)
  else
    ({ acc.1 with transactions := acc.1.transactions ++ [t] }, acc.2)

/-- Modelled from the spec: `solve_transactions` sweeps every live
transaction, retransmitting the due ones and failing the exhausted ones;
returns the new pool and the packets re-sent on the wire. -/
def solve_transactions (now : Nat) (pool : CoapTransactionPool) :
    CoapTransactionPool × List CoapPacket :=
  pool.transactions.foldl (solve_one now)
    ({ pool with transactions := [] }, [])

end CoapTransactionPool

namespace CoapTemplates

/-- Modelled from the spec: `CoapTemplates.EMPTY_ACK.value_with(token, msg_id)` —
an empty ACK (code 0.00) echoing the given token and message id. -/
def EMPTY_ACK_value_with (token : List Nat) (msgId : Nat) : CoapPacket :=
  { version := 1, messageType := CoapType.ACK, code := CoapCodeFormat.EMPTY,
    messageId := msgId, token := token, options := [], payload := "",
    senderIpPort := ("", 0) }

/-- Modelled from the spec: `CoapTemplates.SUCCESS_VALID_ACK.value_with(token,
msg_id)` — a 2.03 VALID ACK echoing the given token and message id. -/
def SUCCESS_VALID_ACK_value_with (token : List Nat) (msgId : Nat) : CoapPacket :=
  { version := 1, messageType := CoapType.ACK,
    code := CoapCodeFormat.SUCCESS_VALID,
    messageId := msgId, token := token, options := [], payload := "",
    senderIpPort := ("", 0) }

/-- Modelled from the spec: `CoapTemplates.NON_COAP_FORMAT.value_with(token,
msg_id)` — the RST-style reply template for malformed input, echoing the
given token and message id (the filter overwrites its code with 5.00). -/
def NON_COAP_FORMAT_value_with (token : List Nat) (msgId : Nat) : CoapPacket :=
  { version := 1, messageType := CoapType.RST, code := CoapCodeFormat.EMPTY,
    messageId := msgId, token := token, options := [], payload := "",
    senderIpPort := ("", 0) }

end CoapTemplates

/-- `CoapWorkerPool.__verify_format` (lines 32–40): a packet is well-formed
when its version is 1 and its message type, code, and option numbers are
all valid. -/
def verify_format (task : CoapPacket) : Bool :=
  if task.version ≠ 1
      || !CoapType.is_valid task.messageType
      || !CoapCodeFormat.is_valid task.code
      || !CoapOptionDelta.is_valid task.options then
    false
  else
    true

/-- An externally visible action of the ingress format filter, in program
order: a datagram sent on the socket to a destination, or a packet put on
the valid-packet queue for the deduplication filter. -/
inductive PoolAction where
  | send (p : CoapPacket) (dest : Peer)
  | enqueueValid (p : CoapPacket)
deriving DecidableEq, Repr

/-- The state the ingress format filter reads and writes: the transaction
pool and the `_failed_requests` map. -/
structure FilterState where
  transactionPool : CoapTransactionPool
  failedRequests : List (GeneralId × Nat)
deriving DecidableEq, Repr

/-- One iteration of `CoapWorkerPool.coap_format_filter` on a decoded
packet (lines 162–202): verify the format; dispatch CONs (ACK first, then
enqueue, unless the overall transaction already failed), finish
transactions on ACK, fail and finish overall transactions on RST, ignore
other types, and answer malformed packets with a 5.00 reply. -/
def coap_format_filter_step (st : FilterState) (now : Nat)
    (packet : CoapPacket) : FilterState × List PoolAction :=
  if verify_format packet then
    if packet.messageType = CoapType.CON then
      if !st.transactionPool.is_overall_transaction_failed packet then
        let ack :=
          if CoapCodeFormat.is_method packet.code then
            CoapTemplates.EMPTY_ACK_value_with packet.token packet.messageId
          else if packet.code = CoapCodeFormat.SUCCESS_CONTENT then
            let base := CoapTemplates.SUCCESS_VALID_ACK_value_with
              packet.token packet.messageId
            { base with payload := toString packet.get_block_id }
          else
            CoapTemplates.EMPTY_ACK_value_with packet.token packet.messageId
        (st, [.send ack packet.senderIpPort, .enqueueValid packet])
      else
        (st, [])
    else if packet.messageType = CoapType.ACK then
      ({ st with transactionPool :=
          st.transactionPool.finish_transaction packet }, [])
    else if packet.messageType = CoapType.RST then
      ({ st with
          failedRequests :=
            mapInsert st.failedRequests packet.general_work_id now,
          transactionPool :=
            (st.transactionPool.set_overall_transaction_failure packet
              ).finish_overall_transaction packet }, [])
    else
      (st, [])
  else
    let base := CoapTemplates.NON_COAP_FORMAT_value_with
      packet.token packet.messageId
    let invalidFormat :=
      { base with code := CoapCodeFormat.SERVER_ERROR_INTERNAL_SERVER_ERROR }
    (st, [.send invalidFormat packet.senderIpPort])

/-- The ingress format filter applied to a whole list of decoded packets
drained in FIFO order from the ingress queue, collecting the actions. -/
def format_run (st : FilterState) (now : Nat) :
    List CoapPacket → FilterState × List PoolAction
  | [] => (st, [])
  | p :: ps =>
    let r := coap_format_filter_step st now p
    let rest := format_run r.1 now ps
    (rest.1, r.2 ++ rest.2)

/-- The packets an action list hands to the deduplication stage. -/
def enqueuedPackets (acts : List PoolAction) : List CoapPacket :=
  acts.filterMap (fun a =>
    match a with
    | .enqueueValid p => some p
    | .send _ _ => none)

/-- The datagrams an action list sends on the socket. -/
def sentPackets (acts : List PoolAction) : List (CoapPacket × Peer) :=
  acts.filterMap (fun a =>
    match a with
    | .send p d => some (p, d)
    | .enqueueValid _ => none)

/-- Modelled from the spec: the worker high-water mark for
`is_heavily_loaded` (recommended 64). -/
def HIGH_WATER : Nat := 64

/-- Modelled from the spec: a `CoapWorker` — a FIFO task queue with a
single consumer, an identity, a started flag, and an idle-time reading.
`wid` distinguishes worker objects (Python object identity). -/
structure CoapWorker where
  wid : Nat
  tasks : List CoapPacket
  started : Bool
  idleTime : Nat
deriving DecidableEq, Repr

namespace CoapWorker

/-- Modelled from the spec: `get_queue_size` — the task queue length. -/
def get_queue_size (w : CoapWorker) : Nat := w.tasks.length

/-- Modelled from the spec: `is_heavily_loaded` — true when the queue
length is at least the high-water mark. -/
def is_heavily_loaded (w : CoapWorker) : Bool := HIGH_WATER ≤ w.tasks.length

/-- Modelled from the spec: `get_idle_time` — seconds since the worker
last completed a task. -/
def get_idle_time (w : CoapWorker) : Nat := w.idleTime

/-- Modelled from the spec: `submit_task` appends the packet to the
worker's FIFO queue. -/
def submit_task (w : CoapWorker) (p : CoapPacket) : CoapWorker :=
  { w with tasks := w.tasks ++ [p] }

/-- Modelled from the spec: `start` marks the worker thread started. -/
def start (w : CoapWorker) : CoapWorker := { w with started := true }

/-- Modelled from the spec: `stop` terminates the worker thread. -/
def stop (w : CoapWorker) : CoapWorker := { w with started := false }

end CoapWorker

/-- `CoapWorkerPool.__max_queue_size` (line 63). -/
def max_queue_size : Nat := 20000

/-- `CoapWorkerPool.__allowed_idle_time` (line 64). -/
def allowed_idle_time : Nat := 60

/-- The worker-pool portion of the dispatcher state: the `__workers` list
plus a counter minting fresh worker identities. -/
structure WorkerPoolState where
  workers : List CoapWorker
  nextWid : Nat
deriving DecidableEq, Repr

/-- `CoapWorkerPool._create_worker` (lines 89–96): construct a fresh
worker, start it, append it to the pool, and return it. -/
def create_worker (st : WorkerPoolState) : CoapWorker × WorkerPoolState :=
  let chosenWorker := CoapWorker.start ⟨st.nextWid, [], false, 0⟩
  (chosenWorker,
    { workers := st.workers ++ [chosenWorker], nextWid := st.nextWid + 1 })

/-- Python's `min(..., default=None, key=...)` over workers keyed by queue
size: scan left to right, keeping the first element with the least key. -/
def pyMinByQueue (cur : CoapWorker) : List CoapWorker → CoapWorker
  | [] => cur
  | x :: xs =>
    pyMinByQueue
      (if x.get_queue_size < cur.get_queue_size then x else cur) xs

/-- `CoapWorkerPool._choose_worker` (lines 98–107): among the workers that
are neither heavily loaded nor at or above `max_queue_size`, pick one with
the least queue size; when none qualifies, create and start a new worker. -/
def choose_worker (st : WorkerPoolState) : CoapWorker × WorkerPoolState :=
  let lightLoadedWorkers := st.workers.filter
    (fun w => ! w.is_heavily_loaded)
  let availableWorkers := lightLoadedWorkers.filter
    (fun w => w.get_queue_size < max_queue_size)
  match availableWorkers with
  | [] => create_worker st
  | x :: xs => (pyMinByQueue x xs, st)

/-- The workers of `_choose_worker` that qualify for selection: neither
heavily loaded nor at or above `max_queue_size`. -/
def qualifyingWorkers (st : WorkerPoolState) : List CoapWorker :=
  (st.workers.filter (fun w => ! w.is_heavily_loaded)).filter
    (fun w => w.get_queue_size < max_queue_size)

/-- Replace the first occurrence of a worker object in the pool list by an
updated copy (Python mutates the shared object in place). -/
def replaceFirst : List CoapWorker → CoapWorker → CoapWorker → List CoapWorker
  | [], _, _ => []
  | x :: xs, target, repl =>
    if x = target then repl :: xs else x :: replaceFirst xs target repl

/-- `self._choose_worker().submit_task(packet)` as run by the
deduplication filter (line 152): choose a worker (creating one when
needed) and append the packet to that worker's queue. -/
def choose_and_submit (st : WorkerPoolState) (packet : CoapPacket) :
    CoapWorker × WorkerPoolState :=
  let (w, st') := choose_worker st
  (w, { st' with workers := replaceFirst st'.workers w (w.submit_task packet) })

/-- One pass of the loop body of `CoapWorkerPool.check_idle_workers`
(lines 117–120), with Python's iterator semantics over a list mutated
during iteration: the cursor `i` advances after each yield, and removing
the current element shifts the tail left (so the element after a removed
one is skipped).  Returns the remaining pool and the stopped workers. -/
def check_idle_pass (allowed : Nat) (i : Nat) (l : List CoapWorker) :
    List CoapWorker × List CoapWorker :=
  if h : i < l.length then
    let w := l.get ⟨i, h⟩
    if w.get_idle_time > allowed ∧ 1 < l.length then
      let r := check_idle_pass allowed (i + 1) (l.eraseIdx i)
      (r.1, w.stop :: r.2)
    else
      check_idle_pass allowed (i + 1) l
  else
    (l, [])
termination_by l.length - i
decreasing_by
  · have := List.length_eraseIdx_of_lt h
    omega
  · omega

/-- An abstract operation on the worker list, covering everything the
dispatcher ever does to it while running: creating a worker (directly or
through `_choose_worker`), submitting a task, or one pass of the
idle-worker check. -/
inductive WorkerOp where
  | create
  | chooseAndSubmit (p : CoapPacket)
  | idlePass
deriving DecidableEq, Repr

/-- Apply one worker-list operation to the pool state. -/
def applyWorkerOp (st : WorkerPoolState) : WorkerOp → WorkerPoolState
  | .create => (create_worker st).2
  | .chooseAndSubmit p => (choose_and_submit st p).2
  | .idlePass =>
    { st with workers := (check_idle_pass allowed_idle_time 0 st.workers).1 }

/-- Apply a sequence of worker-list operations. -/
def applyWorkerOps (st : WorkerPoolState) (ops : List WorkerOp) :
    WorkerPoolState :=
  ops.foldl applyWorkerOp st

/-- Python `int.to_bytes()` with the default arguments: the big-endian
encoding of the integer in exactly one byte.  It raises `OverflowError`
(here: `none`) when the value does not fit in one byte. -/
def int_to_bytes (n : Int) : Option (List Nat) :=
  if 0 ≤ n ∧ n < 256 then some [n.toNat] else none

/-- `CoapWorkerPool.__gen_token` (lines 26–30): increment the class-level
`CURRENT_TOKEN` counter (initially -1) and return its one-byte encoding.
The counter update always happens; the conversion fails once the counter
leaves the one-byte range. -/
def gen_token (currentToken : Int) : Int × Option (List Nat) :=
  (currentToken + 1, int_to_bytes (currentToken + 1))

/-- The initial value of `CoapWorkerPool.CURRENT_TOKEN` (line 24). -/
def INITIAL_TOKEN : Int := -1

/-- The dispatcher state `handle_internal_task` touches: the token
counter, the worker pool, and the transaction pool. -/
structure InternalState where
  currentToken : Int
  workerPool : WorkerPoolState
  transactionPool : CoapTransactionPool
deriving DecidableEq, Repr

/-- `CoapWorkerPool.handle_internal_task` (lines 225–230): assign the next
generated token to the task, optionally hand the task to a freshly created
worker, and only then add the task to the transaction pool.  Returns
`none` when token generation overflows (`OverflowError` propagates and the
task is neither tokenised nor added). -/
def handle_internal_task (st : InternalState) (now : Nat)
    (task : CoapPacket) : Option (InternalState × CoapPacket) :=
  let (c, tok) := gen_token st.currentToken
  match tok with
  | none => none
  | some t =>
    let task' := { task with token := t }
    let workerPool' :=
      if task'.needsInternalComputation then
        let (w, wp) := create_worker st.workerPool
        { wp with workers := replaceFirst wp.workers w (w.submit_task task') }
      else st.workerPool
    some ({ currentToken := c,
            workerPool := workerPool',
            transactionPool := st.transactionPool.add_transaction now task' },
          task')

/-- Feed a list of internally initiated tasks to `handle_internal_task` in
order, recording the token assigned to each task (`none` for a call on
which token generation overflowed; the counter increment of `__gen_token`
has happened by the time the overflow is raised, so it persists). -/
def run_internal_tasks (st : InternalState) (now : Nat) :
    List CoapPacket → InternalState × List (Option (List Nat))
  | [] => (st, [])
  | task :: tasks =>
    match handle_internal_task st now task with
    | some (st', task') =>
      let rest := run_internal_tasks st' now tasks
      (rest.1, some task'.token :: rest.2)
    | none =>
      let rest := run_internal_tasks
        { st with currentToken := st.currentToken + 1 } now tasks
      (rest.1, none :: rest.2)

/-- A resource as the dispatcher sees it (`source/coap_core/coap_resource/
resource.py` is a collaborator): a name and a root path set by the
manager. -/
structure Resource where
  name : String
  rootPath : Option String
deriving DecidableEq, Repr

namespace Resource

/-- Modelled from the spec: `Resource.get_name`. -/
def get_name (r : Resource) : String := r.name

/-- Modelled from the spec: `Resource.set_root_path`. -/
def set_root_path (r : Resource) (p : Option String) : Resource :=
  { r with rootPath := p }

end Resource

/-- `ResourceManager.__init__`: an empty resource list, no default
resource, no root path. -/
structure ResourceManager where
  resources : List Resource
  defaultResource : Option Resource
  rootPath : Option String
deriving DecidableEq, Repr

namespace ResourceManager

/-- The freshly initialised `ResourceManager`. -/
def init : ResourceManager := ⟨[], none, none⟩

/-- `ResourceManager.set_root_path` (the directory creation is I/O with no
effect on the manager's fields beyond storing the path). -/
def set_root_path (m : ResourceManager) (p : String) : ResourceManager :=
  { m with rootPath := some p }

/-- `ResourceManager.add_resource` (lines 23–25): set the resource's root
path and append it to the resource list. -/
def add_resource (m : ResourceManager) (r : Resource) : ResourceManager :=
  { m with resources := m.resources ++ [r.set_root_path m.rootPath] }

/-- `ResourceManager.add_default_resource` (lines 27–29): set the
resource's root path and store it as the default resource. -/
def add_default_resource (m : ResourceManager) (r : Resource) :
    ResourceManager :=
  { m with defaultResource := some (r.set_root_path m.rootPath) }

/-- `ResourceManager.get_resource` (lines 31–35): scan the resource list
in order and return the first resource whose name matches, else `None`. -/
def get_resource (m : ResourceManager) (name : String) : Option Resource :=
  m.resources.find? (fun r => r.get_name = name)

/-- `ResourceManager.get_default_resource` (lines 37–38). -/
def get_default_resource (m : ResourceManager) : Option Resource :=
  m.defaultResource

end ResourceManager

/-- No live transaction in the pool belongs to the given
`general_work_id`; once this holds, `solve_transactions` can never
retransmit a packet of that id again. -/
def no_live_work (pool : CoapTransactionPool) (g : GeneralId) : Prop :=
  ∀ t ∈ pool.transactions, t.packet.general_work_id ≠ g

/-- The integer value of a big-endian byte string, for comparing tokens. -/
def byteValue (bs : List Nat) : Nat :=
  bs.foldl (fun acc b => 256 * acc + b) 0

/-- A concrete 2.05 CONTENT packet carrying a Block2 option, as received
mid block-wise transfer. -/
def blockContentPacket : CoapPacket :=
  { version := 1, messageType := CoapType.CON,
    code := CoapCodeFormat.SUCCESS_CONTENT, messageId := 7, token := [1],
    options := [(CoapOptionDelta.BLOCK2, 32)], payload := "",
    senderIpPort := ("10.0.0.1", 5683) }

/-- A concrete CON GET request packet. -/
def getRequestPacket : CoapPacket :=
  { version := 1, messageType := CoapType.CON, code := CoapCodeFormat.GET,
    messageId := 3, token := [3], options := [(CoapOptionDelta.URI_PATH, 0)],
    payload := "", senderIpPort := ("10.0.0.2", 5683) }

/-- A concrete packet with version 2, rejected by `__verify_format`. -/
def badVersionPacket : CoapPacket :=
  { version := 2, messageType := CoapType.CON, code := CoapCodeFormat.GET,
    messageId := 9, token := [9], options := [], payload := "",
    senderIpPort := ("10.0.0.3", 5683) }

/-- A concrete RST packet for a token mid-transfer. -/
def rstPacket : CoapPacket :=
  { version := 1, messageType := CoapType.RST, code := CoapCodeFormat.EMPTY,
    messageId := 12, token := [5], options := [], payload := "",
    senderIpPort := ("10.0.0.4", 5683) }

/-- A concrete internally initiated task, before token assignment. -/
def internalTask : CoapPacket :=
  { version := 1, messageType := CoapType.CON, code := CoapCodeFormat.GET,
    messageId := 1, token := [], options := [], payload := "",
    senderIpPort := ("10.0.0.5", 5683) }

section AssocMapLemmas

variable {κ : Type} [DecidableEq κ] {β : Type}

theorem mapContains_iff_lookup (m : List (κ × β)) (k : κ) :
    mapContains m k = true ↔ (mapLookup m k).isSome := by
  induction m with
  | nil => simp [mapContains, mapLookup]
  | cons e rest ih =>
    by_cases h : e.1 = k <;> simp [mapContains, mapLookup, h, ih]

theorem mapLookup_pop (m : List (κ × β)) (k k' : κ) :
    mapLookup (mapPop m k) k' = if k' = k then none else mapLookup m k' := by
  induction m with
  | nil => simp [mapPop, mapLookup]
  | cons e rest ih =>
    by_cases hek : e.1 = k
    · by_cases hk : k' = k
      · subst hk; simp [mapPop, mapLookup, hek, ih]
      · have hek' : ¬ e.1 = k' := fun h => hk (by rw [← h, hek])
        have hk' : ¬ k = k' := fun h => hk h.symm
        simp [mapPop, mapLookup, hek, hek', hk, hk', ih]
    · by_cases hk : k' = k
      · subst hk; simp [mapPop, mapLookup, hek, ih]
      · simp [mapPop, mapLookup, hek, hk, ih]

theorem mapLookup_eq_none_of_not_contains (m : List (κ × β)) (k : κ)
    (h : mapContains m k = false) : mapLookup m k = none := by
  cases hl : mapLookup m k with
  | none => rfl
  | some v =>
    have : mapContains m k = true := by
      rw [mapContains_iff_lookup, hl]; rfl
    rw [this] at h; cases h

theorem mapLookup_insert (m : List (κ × β)) (k k' : κ) (v : β) :
    mapLookup (mapInsert m k v) k' =
      if k' = k then some v else mapLookup m k' := by
  induction m with
  | nil =>
    by_cases hk : k' = k <;> simp [mapInsert, mapLookup, hk]
    intro h; exact hk h.symm
  | cons e rest ih =>
    by_cases hek : e.1 = k
    · by_cases hk : k' = k
      · subst hk; simp [mapInsert, mapLookup, hek]
      · have hek' : ¬ e.1 = k' := fun h => hk (by rw [← h, hek])
        have hk' : ¬ k = k' := fun h => hk h.symm
        simp [mapInsert, mapLookup, hek, hek', hk, hk']
    · by_cases hk : k' = k
      · subst hk; simp [mapInsert, mapLookup, hek, ih]
      · simp [mapInsert, mapLookup, hek, hk, ih]

theorem mapContains_insert_self (m : List (κ × β)) (k : κ) (v : β) :
    mapContains (mapInsert m k v) k = true := by
  rw [mapContains_iff_lookup, mapLookup_insert]
  simp

end AssocMapLemmas

/-- C9: `remove_short_term_work` and `remove_long_term_work` are total and
atomic at the map level: when the key is absent the state is unchanged and
no error is raised; when it is present exactly that entry disappears from
the targeted map, every other entry of that map is preserved, and the
other map is untouched. -/
theorem remove_work_total_and_frame (st : SharedWorkState) (ws : ShortId)
    (wl : LongId) :
    ((remove_short_term_work st ws).longTermSharedWork
        = st.longTermSharedWork) ∧
    (mapContains st.shortTermSharedWork ws = false →
      remove_short_term_work st ws = st) ∧
    (∀ k, mapLookup (remove_short_term_work st ws).shortTermSharedWork k =
      if k = ws then none else mapLookup st.shortTermSharedWork k) ∧
    ((remove_long_term_work st wl).shortTermSharedWork
        = st.shortTermSharedWork) ∧
    (mapContains st.longTermSharedWork wl = false →
      remove_long_term_work st wl = st) ∧
    (∀ k, mapLookup (remove_long_term_work st wl).longTermSharedWork k =
      if k = wl then none else mapLookup st.longTermSharedWork k) := by
  refine ⟨?_, ?_, ?_, ?_, ?_, ?_⟩
  · unfold remove_short_term_work; split <;> rfl
  · intro h; unfold remove_short_term_work; rw [h]; simp
  · intro k
    unfold remove_short_term_work
    by_cases h : mapContains st.shortTermSharedWork ws
    · simp only [h, if_true]
      exact mapLookup_pop st.shortTermSharedWork ws k
    · simp only [Bool.not_eq_true] at h
      simp only [h, Bool.false_eq_true, if_false]
      by_cases hk : k = ws
      · subst hk
        simp [mapLookup_eq_none_of_not_contains st.shortTermSharedWork k h]
      · simp [hk]
  · unfold remove_long_term_work; split <;> rfl
  · intro h; unfold remove_long_term_work; rw [h]; simp
  · intro k
    unfold remove_long_term_work
    by_cases h : mapContains st.longTermSharedWork wl
    · simp only [h, if_true]
      exact mapLookup_pop st.longTermSharedWork wl k
    · simp only [Bool.not_eq_true] at h
      simp only [h, Bool.false_eq_true, if_false]
      by_cases hk : k = wl
      · subst hk
        simp [mapLookup_eq_none_of_not_contains st.longTermSharedWork k h]
      · simp [hk]

/-- C9 witness: the removal theorem instantiated at a concrete two-entry
short-term map and a concrete long-term map, with its hypotheses
discharged by evaluation. -/
theorem remove_work_total_and_frame_witness :
    (remove_short_term_work
        ⟨[((("10.0.0.1", 5683), 7), 100), ((("10.0.0.2", 5683), 3), 200)],
         [((("10.0.0.1", 5683), [1], 23), 300)]⟩
        (("10.0.0.1", 5683), 7)).shortTermSharedWork
      = [((("10.0.0.2", 5683), 3), 200)] ∧
    (remove_short_term_work
        ⟨[((("10.0.0.1", 5683), 7), 100), ((("10.0.0.2", 5683), 3), 200)],
         [((("10.0.0.1", 5683), [1], 23), 300)]⟩
        (("10.0.0.1", 5683), 7)).longTermSharedWork
      = [((("10.0.0.1", 5683), [1], 23), 300)] ∧
    remove_long_term_work
        ⟨[((("10.0.0.1", 5683), 7), 100)], []⟩ (("10.0.0.9", 1), [2], 27)
      = ⟨[((("10.0.0.1", 5683), 7), 100)], []⟩ := by
  have h := remove_work_total_and_frame
    ⟨[((("10.0.0.1", 5683), 7), 100), ((("10.0.0.2", 5683), 3), 200)],
     [((("10.0.0.1", 5683), [1], 23), 300)]⟩
    (("10.0.0.1", 5683), 7) (("10.0.0.1", 5683), [1], 23)
  have h2 := remove_work_total_and_frame
    ⟨[((("10.0.0.1", 5683), 7), 100)], []⟩
    (("10.0.0.1", 5683), 7) (("10.0.0.9", 1), [2], 27)
  refine ⟨by decide, h.1, h2.2.2.2.2.1 (by decide)⟩

theorem find?_first_match {α : Type} (pr : α → Bool) (l : List α) (a : α)
    (h : l.find? pr = some a) :
    ∃ i, ∃ hi : i < l.length, l.get ⟨i, hi⟩ = a ∧ pr a = true ∧
      ∀ b ∈ l.take i, pr b = false := by
  induction l with
  | nil => cases h
  | cons x xs ih =>
    by_cases hx : pr x
    · rw [List.find?_cons_of_pos _ hx] at h
      injection h with hxa
      subst hxa
      exact ⟨0, by simp, by simp, hx, by simp⟩
    · rw [List.find?_cons_of_neg _ (by simpa using hx)] at h
      obtain ⟨i, hi, hget, hpr, hbefore⟩ := ih h
      refine ⟨i + 1, by simpa using Nat.succ_lt_succ hi, by simpa using hget,
        hpr, ?_⟩
      intro b hb
      simp only [List.take_succ_cons, List.mem_cons] at hb
      rcases hb with hb | hb
      · subst hb; simpa using hx
      · exact hbefore b hb

theorem foldl_add_resource (m : ResourceManager) (rs : List Resource) :
    rs.foldl ResourceManager.add_resource m =
      { m with resources :=
          m.resources ++ rs.map (fun r => r.set_root_path m.rootPath) } := by
  induction rs generalizing m with
  | nil => simp
  | cons r rest ih =>
    simp only [List.foldl_cons, List.map_cons]
    rw [ih]
    simp [ResourceManager.add_resource]

/-- C10: after any sequence of `add_resource` calls the resource list is
the original list extended in insertion order (each added resource given
the manager's root path) and the default resource is untouched;
`get_resource` returns the first resource in insertion order whose name
matches, and `none` when no resource matches. -/
theorem resource_manager_first_match (m : ResourceManager)
    (rs : List Resource) (name : String) :
    ((rs.foldl ResourceManager.add_resource m).resources =
      m.resources ++ rs.map (fun r => r.set_root_path m.rootPath)) ∧
    ((rs.foldl ResourceManager.add_resource m).defaultResource =
      m.defaultResource) ∧
    (ResourceManager.get_resource m name = none ↔
      ∀ r ∈ m.resources, r.get_name ≠ name) ∧
    (∀ r, ResourceManager.get_resource m name = some r →
      ∃ i, ∃ hi : i < m.resources.length,
        m.resources.get ⟨i, hi⟩ = r ∧ r.get_name = name ∧
        ∀ b ∈ m.resources.take i, b.get_name ≠ name) := by
  refine ⟨?_, ?_, ?_, ?_⟩
  · rw [foldl_add_resource]
  · rw [foldl_add_resource]
  · unfold ResourceManager.get_resource
    rw [List.find?_eq_none]
    constructor
    · intro h r hr
      have := h r hr
      simpa using this
    · intro h r hr
      simpa using h r hr
  · intro r hr
    have hr' : m.resources.find? (fun x : Resource => x.get_name = name)
        = some r := hr
    obtain ⟨i, hi, hget, hpr, hbefore⟩ :=
      find?_first_match (fun x : Resource => x.get_name = name)
        m.resources r hr'
    refine ⟨i, hi, hget, by simpa using hpr, ?_⟩
    intro b hb
    simpa using hbefore b hb

/-- C10 witness: with two resources named "a" added in order, lookup of
"a" returns the first one and lookup of "z" returns `None`; the default
resource stays `None` throughout. -/
theorem resource_manager_first_match_witness :
    ([⟨"a", some "p1"⟩, ⟨"a", some "p2"⟩, ⟨"b", none⟩].foldl
        ResourceManager.add_resource ResourceManager.init).resources =
      [⟨"a", none⟩, ⟨"a", none⟩, ⟨"b", none⟩] ∧
    ([⟨"a", some "p1"⟩, ⟨"a", some "p2"⟩, ⟨"b", none⟩].foldl
        ResourceManager.add_resource ResourceManager.init).defaultResource =
      none ∧
    ResourceManager.get_resource
      ⟨[⟨"a", none⟩, ⟨"a", some "x"⟩, ⟨"b", none⟩], none, none⟩ "z" = none := by
  have h1 := resource_manager_first_match ResourceManager.init
    [⟨"a", some "p1"⟩, ⟨"a", some "p2"⟩, ⟨"b", none⟩] "a"
  have h2 := resource_manager_first_match
    ⟨[⟨"a", none⟩, ⟨"a", some "x"⟩, ⟨"b", none⟩], none, none⟩ ([]) "z"
  refine ⟨by rw [h1.1]; decide, h1.2.1, ?_⟩
  exact h2.2.2.1.mpr (by decide)

theorem dedup_step_cases (st : SharedWorkState) (now : Nat) (p : CoapPacket) :
    ((deduplication_step st now p).submitted = some p ↔
      (mapContains st.shortTermSharedWork p.short_term_work_id = false ∧
       ∀ l, computed_long_term_work p = some l →
         mapContains st.longTermSharedWork l = false)) ∧
    ((deduplication_step st now p).submitted = none →
      (deduplication_step st now p).state = st) ∧
    (∀ l, computed_long_term_work p = some l →
      (deduplication_step st now p).submitted = some p →
      (deduplication_step st now p).state.longTermSharedWork
        = mapInsert st.longTermSharedWork l now ∧
      (deduplication_step st now p).state.shortTermSharedWork
        = st.shortTermSharedWork) ∧
    (computed_long_term_work p = none →
      (deduplication_step st now p).submitted = some p →
      (deduplication_step st now p).state.shortTermSharedWork
        = mapInsert st.shortTermSharedWork p.short_term_work_id now ∧
      (deduplication_step st now p).state.longTermSharedWork
        = st.longTermSharedWork) := by
  cases hl : computed_long_term_work p with
  | none =>
    by_cases hs : mapContains st.shortTermSharedWork p.short_term_work_id <;>
      simp [deduplication_step, hl, hs]
  | some l =>
    by_cases hs : mapContains st.shortTermSharedWork p.short_term_work_id
    · simp [deduplication_step, hl, hs]
    · by_cases hl2 : mapContains st.longTermSharedWork l <;>
        simp [deduplication_step, hl, hs, hl2]

/-- C1 counterexample: a freshly received 2.05 CONTENT packet with a
Block2 option is submitted by the deduplication filter, yet its
`short_term_work_id` is NOT inserted into the short-term map — only the
long-term id is recorded — contradicting the claim that on submission the
id(s) (both computed ids) are inserted into their respective maps. -/
theorem dedup_single_insert_counterexample :
    (deduplication_step ⟨[], []⟩ 5 blockContentPacket).submitted
      = some blockContentPacket ∧
    computed_long_term_work blockContentPacket
      = some blockContentPacket.long_term_work_id ∧
    mapContains
      (deduplication_step ⟨[], []⟩ 5 blockContentPacket).state.shortTermSharedWork
      blockContentPacket.short_term_work_id = false := by
  refine ⟨by decide, by decide, by decide⟩

/-- C1 (amended): the deduplication filter submits a validated packet to a
worker iff its `short_term_work_id` is absent from the short-term map and
its computed `long_term_work_id` (present only for a success code carrying
a Block option) is absent from the long-term map; on submission exactly
ONE id is inserted with the current time — the long-term id when computed,
otherwise the short-term id — leaving the other map unchanged, and on a
duplicate the packet is dropped with no state change. -/
theorem deduplication_step_spec (st : SharedWorkState) (now : Nat)
    (p : CoapPacket) :
    ((deduplication_step st now p).submitted = some p ↔
      (mapContains st.shortTermSharedWork p.short_term_work_id = false ∧
       ∀ l, computed_long_term_work p = some l →
         mapContains st.longTermSharedWork l = false)) ∧
    ((deduplication_step st now p).submitted = none →
      (deduplication_step st now p).state = st) ∧
    (∀ l, computed_long_term_work p = some l →
      (deduplication_step st now p).submitted = some p →
      (deduplication_step st now p).state.longTermSharedWork
        = mapInsert st.longTermSharedWork l now ∧
      (deduplication_step st now p).state.shortTermSharedWork
        = st.shortTermSharedWork) ∧
    (computed_long_term_work p = none →
      (deduplication_step st now p).submitted = some p →
      (deduplication_step st now p).state.shortTermSharedWork
        = mapInsert st.shortTermSharedWork p.short_term_work_id now ∧
      (deduplication_step st now p).state.longTermSharedWork
        = st.longTermSharedWork) :=
  dedup_step_cases st now p

/-- C1 witness: a fresh CON GET request is submitted and its short-term id
is recorded, with the long-term map untouched. -/
theorem deduplication_step_spec_witness :
    (deduplication_step ⟨[], []⟩ 9 getRequestPacket).submitted
      = some getRequestPacket ∧
    (deduplication_step ⟨[], []⟩ 9 getRequestPacket).state.shortTermSharedWork
      = mapInsert [] getRequestPacket.short_term_work_id 9 ∧
    (deduplication_step ⟨[], []⟩ 9 getRequestPacket).state.longTermSharedWork
      = [] := by
  have h := deduplication_step_spec ⟨[], []⟩ 9 getRequestPacket
  have hnone : computed_long_term_work getRequestPacket = none := by decide
  have hsub := h.1.mpr ⟨by decide,
    fun l hl => by rw [hnone] at hl; cases hl⟩
  exact ⟨hsub, (h.2.2.2 hnone hsub).1, (h.2.2.2 hnone hsub).2⟩

theorem format_step_con (st : FilterState) (now : Nat) (p : CoapPacket)
    (hver : verify_format p = true) (hcon : p.messageType = CoapType.CON)
    (hfail : st.transactionPool.is_overall_transaction_failed p = false) :
    ∃ ack, coap_format_filter_step st now p
        = (st, [.send ack p.senderIpPort, .enqueueValid p]) ∧
      ack.messageType = CoapType.ACK ∧ ack.token = p.token ∧
      ack.messageId = p.messageId ∧
      (CoapCodeFormat.is_method p.code = true →
        ack = CoapTemplates.EMPTY_ACK_value_with p.token p.messageId) ∧
      (p.code = CoapCodeFormat.SUCCESS_CONTENT →
        ack.code = CoapCodeFormat.SUCCESS_VALID ∧
        ack.payload = toString p.get_block_id) := by
  by_cases hm : CoapCodeFormat.is_method p.code
  · refine ⟨CoapTemplates.EMPTY_ACK_value_with p.token p.messageId,
      ?_, rfl, rfl, rfl, fun _ => rfl, ?_⟩
    · simp [coap_format_filter_step, hver, hcon, hfail, hm]
    · intro hc
      rw [hc] at hm
      exact absurd hm (by decide)
  · by_cases hc : p.code = CoapCodeFormat.SUCCESS_CONTENT
    · refine ⟨{ CoapTemplates.SUCCESS_VALID_ACK_value_with p.token p.messageId
          with payload := toString p.get_block_id },
        ?_, rfl, rfl, rfl, fun h => absurd h hm, fun _ => ⟨rfl, rfl⟩⟩
      have hm' : CoapCodeFormat.is_method CoapCodeFormat.SUCCESS_CONTENT
          = false := by decide
      simp [coap_format_filter_step, hver, hcon, hfail, hm, hc, hm']
    · refine ⟨CoapTemplates.EMPTY_ACK_value_with p.token p.messageId,
        ?_, rfl, rfl, rfl, fun _ => rfl, fun h => absurd h hc⟩
      simp [coap_format_filter_step, hver, hcon, hfail, hm, hc]

/-- C3: for a format-valid CON whose overall transaction has already
failed, the ingress filter drops the packet (no ACK, nothing enqueued, no
state change); otherwise it sends exactly one ACK to the packet's sender —
an empty ACK for method codes and, for a 2.05 CONTENT, a 2.03 VALID ACK
whose payload encodes the acknowledged block id — and only afterwards
enqueues the packet for deduplication (the send action precedes the
enqueue action in the emitted trace). -/
theorem con_ingress_ack_then_enqueue (st : FilterState) (now : Nat)
    (p : CoapPacket)
    (hver : verify_format p = true) (hcon : p.messageType = CoapType.CON) :
    (st.transactionPool.is_overall_transaction_failed p = true →
      coap_format_filter_step st now p = (st, [])) ∧
    (st.transactionPool.is_overall_transaction_failed p = false →
      ∃ ack, coap_format_filter_step st now p
          = (st, [.send ack p.senderIpPort, .enqueueValid p]) ∧
        ack.messageType = CoapType.ACK ∧ ack.token = p.token ∧
        ack.messageId = p.messageId ∧
        (CoapCodeFormat.is_method p.code = true →
          ack = CoapTemplates.EMPTY_ACK_value_with p.token p.messageId) ∧
        (p.code = CoapCodeFormat.SUCCESS_CONTENT →
          ack.code = CoapCodeFormat.SUCCESS_VALID ∧
          ack.payload = toString p.get_block_id)) := by
  constructor
  · intro hfail
    simp [coap_format_filter_step, hver, hcon, hfail]
  · intro hfail
    exact format_step_con st now p hver hcon hfail

/-- C3 witness: a fresh CON GET against an empty transaction pool is
answered with the empty ACK echoing its token and message id, sent before
the packet is enqueued. -/
theorem con_ingress_ack_then_enqueue_witness :
    coap_format_filter_step ⟨CoapTransactionPool.empty, []⟩ 0 getRequestPacket
      = (⟨CoapTransactionPool.empty, []⟩,
        [.send (CoapTemplates.EMPTY_ACK_value_with [3] 3) ("10.0.0.2", 5683),
         .enqueueValid getRequestPacket]) := by
  have h := con_ingress_ack_then_enqueue ⟨CoapTransactionPool.empty, []⟩ 0
    getRequestPacket (by decide) (by decide)
  obtain ⟨ack, heq, -, -, -, hm, -⟩ := h.2 (by decide)
  rw [hm (by decide)] at heq
  exact heq

/-- C4: a decoded packet that fails format verification is answered with a
single reply carrying code 5.00 and the offending packet's token and
message id, sent to the sender; nothing is enqueued for deduplication and
the filter state (transaction pool and failed-requests map) is unchanged,
so no worker is invoked and no transaction or shared-work state is
created. -/
theorem invalid_format_rejected (st : FilterState) (now : Nat)
    (p : CoapPacket) (hver : verify_format p = false) :
    (coap_format_filter_step st now p).1 = st ∧
    enqueuedPackets (coap_format_filter_step st now p).2 = [] ∧
    ∃ reply, (coap_format_filter_step st now p).2
        = [.send reply p.senderIpPort] ∧
      reply.code = CoapCodeFormat.SERVER_ERROR_INTERNAL_SERVER_ERROR ∧
      reply.token = p.token ∧ reply.messageId = p.messageId := by
  refine ⟨?_, ?_, ?_⟩
  · simp [coap_format_filter_step, hver]
  · simp [coap_format_filter_step, hver, enqueuedPackets]
  · refine ⟨{ CoapTemplates.NON_COAP_FORMAT_value_with p.token p.messageId
        with code := CoapCodeFormat.SERVER_ERROR_INTERNAL_SERVER_ERROR },
      ?_, rfl, rfl, rfl⟩
    simp [coap_format_filter_step, hver]

/-- C4 witness: a version-2 datagram is answered with a 5.00 reply echoing
its token and message id and leaves the filter state unchanged. -/
theorem invalid_format_rejected_witness :
    (coap_format_filter_step ⟨CoapTransactionPool.empty, []⟩ 0
        badVersionPacket).1 = ⟨CoapTransactionPool.empty, []⟩ ∧
    enqueuedPackets (coap_format_filter_step ⟨CoapTransactionPool.empty, []⟩ 0
        badVersionPacket).2 = [] ∧
    ∃ reply, (coap_format_filter_step ⟨CoapTransactionPool.empty, []⟩ 0
        badVersionPacket).2 = [.send reply ("10.0.0.3", 5683)] ∧
      reply.code = 160 ∧ reply.token = [9] ∧ reply.messageId = 9 := by
  have h := invalid_format_rejected ⟨CoapTransactionPool.empty, []⟩ 0
    badVersionPacket (by decide)
  refine ⟨h.1, h.2.1, ?_⟩
  obtain ⟨reply, heq, hcode, htok, hmid⟩ := h.2.2
  exact ⟨reply, heq, hcode.trans (by decide), htok.trans (by decide),
    hmid.trans (by decide)⟩

theorem format_run_replicate (st : FilterState) (now : Nat) (p : CoapPacket)
    (acts : List PoolAction)
    (hstep : coap_format_filter_step st now p = (st, acts)) :
    ∀ n, (format_run st now (List.replicate n p)).1 = st ∧
      enqueuedPackets (format_run st now (List.replicate n p)).2
        = (List.replicate n (enqueuedPackets acts)).flatten ∧
      sentPackets (format_run st now (List.replicate n p)).2
        = (List.replicate n (sentPackets acts)).flatten := by
  intro n
  induction n with
  | zero => exact ⟨rfl, rfl, rfl⟩
  | succ m ih =>
    rw [List.replicate_succ]
    simp only [format_run, hstep]
    refine ⟨ih.1, ?_, ?_⟩
    · simp only [enqueuedPackets, List.filterMap_append] at ih ⊢
      rw [ih.2.1, List.replicate_succ, List.flatten_cons]
    · simp only [sentPackets, List.filterMap_append] at ih ⊢
      rw [ih.2.2, List.replicate_succ, List.flatten_cons]

theorem dedup_step_blocked (st : SharedWorkState) (now : Nat)
    (p : CoapPacket)
    (h : mapContains st.shortTermSharedWork p.short_term_work_id = true ∨
      ∃ l, computed_long_term_work p = some l ∧
        mapContains st.longTermSharedWork l = true) :
    deduplication_step st now p = ⟨st, none⟩ := by
  rcases h with h | ⟨l, hl, h⟩
  · cases hl : computed_long_term_work p <;>
      simp [deduplication_step, hl, h]
  · simp [deduplication_step, hl, h]

theorem dedup_run_blocked (st : SharedWorkState) (now : Nat)
    (p : CoapPacket)
    (h : mapContains st.shortTermSharedWork p.short_term_work_id = true ∨
      ∃ l, computed_long_term_work p = some l ∧
        mapContains st.longTermSharedWork l = true) :
    ∀ n, dedup_run st now (List.replicate n p) = (st, []) := by
  intro n
  induction n with
  | zero => rfl
  | succ m ih =>
    rw [List.replicate_succ]
    simp [dedup_run, dedup_step_blocked st now p h, ih]

/-- C2: for any non-empty sequence of identical CON packets from the same
peer with the same message id, arriving while their overall transaction is
not failed and their work ids are fresh, the ingress filter answers every
single CON with an ACK to the sender, yet the deduplication stage submits
exactly one task to the workers. -/
theorem duplicate_con_single_task (fst : FilterState)
    (dst : SharedWorkState) (now : Nat) (p : CoapPacket) (n : Nat)
    (hver : verify_format p = true) (hcon : p.messageType = CoapType.CON)
    (hfail : fst.transactionPool.is_overall_transaction_failed p = false)
    (hshort : mapContains dst.shortTermSharedWork p.short_term_work_id
      = false)
    (hlong : ∀ l, computed_long_term_work p = some l →
      mapContains dst.longTermSharedWork l = false)
    (hn : 1 ≤ n) :
    (sentPackets (format_run fst now (List.replicate n p)).2).length = n ∧
    (∀ a ∈ sentPackets (format_run fst now (List.replicate n p)).2,
      a.1.messageType = CoapType.ACK ∧ a.2 = p.senderIpPort) ∧
    (dedup_run dst now
      (enqueuedPackets (format_run fst now (List.replicate n p)).2)).2
      = [p] := by
  obtain ⟨ack, hstep, hackty, -, -, -, -⟩ :=
    format_step_con fst now p hver hcon hfail
  obtain ⟨-, henq, hsent⟩ := format_run_replicate fst now p _ hstep n
  have henq' : enqueuedPackets (format_run fst now (List.replicate n p)).2
      = List.replicate n p := by
    rw [henq]
    have : enqueuedPackets
        [PoolAction.send ack p.senderIpPort, PoolAction.enqueueValid p]
        = [p] := rfl
    rw [this]
    induction n with
    | zero => rfl
    | succ m ihm => simp [List.replicate_succ, ihm]
  have hsent' : sentPackets (format_run fst now (List.replicate n p)).2
      = List.replicate n (ack, p.senderIpPort) := by
    rw [hsent]
    have : sentPackets
        [PoolAction.send ack p.senderIpPort, PoolAction.enqueueValid p]
        = [(ack, p.senderIpPort)] := rfl
    rw [this]
    induction n with
    | zero => rfl
    | succ m ihm => simp [List.replicate_succ, ihm]
  refine ⟨by rw [hsent']; simp, ?_, ?_⟩
  · intro a ha
    rw [hsent'] at ha
    have := List.eq_of_mem_replicate ha
    subst this
    exact ⟨hackty, rfl⟩
  · rw [henq']
    obtain ⟨m, rfl⟩ : ∃ m, n = m + 1 := ⟨n - 1, by omega⟩
    rw [List.replicate_succ]
    have hch := dedup_step_cases dst now p
    have hsub : (deduplication_step dst now p).submitted = some p :=
      hch.1.mpr ⟨hshort, hlong⟩
    have hblocked :
        mapContains (deduplication_step dst now p).state.shortTermSharedWork
          p.short_term_work_id = true ∨
        ∃ l, computed_long_term_work p = some l ∧
          mapContains (deduplication_step dst now p).state.longTermSharedWork
            l = true := by
      cases hl : computed_long_term_work p with
      | none =>
        left
        rw [(hch.2.2.2 hl hsub).1]
        exact mapContains_insert_self _ _ _
      | some l =>
        right
        refine ⟨l, rfl, ?_⟩
        rw [(hch.2.2.1 l hl hsub).1]
        exact mapContains_insert_self _ _ _
    simp [dedup_run, hsub, dedup_run_blocked _ now p hblocked m]

/-- C2 witness: two identical CON GET requests produce two ACKs but a
single submitted task. -/
theorem duplicate_con_single_task_witness :
    (sentPackets (format_run ⟨CoapTransactionPool.empty, []⟩ 0
      (List.replicate 2 getRequestPacket)).2).length = 2 ∧
    (dedup_run ⟨[], []⟩ 0
      (enqueuedPackets (format_run ⟨CoapTransactionPool.empty, []⟩ 0
        (List.replicate 2 getRequestPacket)).2)).2 = [getRequestPacket] := by
  have hnone : computed_long_term_work getRequestPacket = none := by decide
  have h := duplicate_con_single_task ⟨CoapTransactionPool.empty, []⟩
    ⟨[], []⟩ 0 getRequestPacket 2 (by decide) (by decide) (by decide)
    (by decide) (fun l hl => by rw [hnone] at hl; cases hl) (by decide)
  exact ⟨h.1, h.2.2⟩

theorem pyMinByQueue_mem (cur : CoapWorker) (l : List CoapWorker) :
    pyMinByQueue cur l = cur ∨ pyMinByQueue cur l ∈ l := by
  induction l generalizing cur with
  | nil => left; rfl
  | cons x xs ih =>
    simp only [pyMinByQueue]
    rcases ih (if x.get_queue_size < cur.get_queue_size then x else cur)
      with h | h
    · rw [h]
      split
      · right; simp
      · left; rfl
    · right
      exact List.mem_cons_of_mem x h

theorem pyMinByQueue_le (cur : CoapWorker) (l : List CoapWorker) :
    (pyMinByQueue cur l).get_queue_size ≤ cur.get_queue_size ∧
    ∀ w ∈ l, (pyMinByQueue cur l).get_queue_size ≤ w.get_queue_size := by
  induction l generalizing cur with
  | nil => exact ⟨le_refl _, by simp⟩
  | cons x xs ih =>
    simp only [pyMinByQueue]
    by_cases hc : x.get_queue_size < cur.get_queue_size
    · rw [if_pos hc]
      obtain ⟨h1, h2⟩ := ih x
      refine ⟨le_trans h1 (le_of_lt hc), ?_⟩
      intro w hw
      rcases List.mem_cons.mp hw with rfl | hw
      · exact h1
      · exact h2 w hw
    · rw [if_neg hc]
      obtain ⟨h1, h2⟩ := ih cur
      refine ⟨h1, ?_⟩
      intro w hw
      rcases List.mem_cons.mp hw with rfl | hw
      · exact le_trans h1 (Nat.le_of_not_lt hc)
      · exact h2 w hw

theorem replaceFirst_append_fresh (l : List CoapWorker)
    (w repl : CoapWorker) (h : ∀ x ∈ l, x ≠ w) :
    replaceFirst (l ++ [w]) w repl = l ++ [repl] := by
  induction l with
  | nil => simp [replaceFirst]
  | cons x xs ih =>
    have hx : x ≠ w := h x (by simp)
    simp only [List.cons_append, replaceFirst, if_neg hx, List.append_eq]
    rw [ih (fun y hy => h y (List.mem_cons_of_mem x hy))]

theorem replaceFirst_length (l : List CoapWorker) (t r : CoapWorker) :
    (replaceFirst l t r).length = l.length := by
  induction l with
  | nil => rfl
  | cons x xs ih =>
    simp only [replaceFirst]
    split <;> simp [ih]

/-- C5: whenever the deduplication filter needs a worker, the chosen one
has minimal task-queue size among the workers that are neither heavily
loaded nor at or above `max_queue_size` (20000); when no worker qualifies,
a fresh worker is created, started, appended to the pool, and it is that
new worker that receives the submitted task. -/
theorem choose_worker_selection (st : WorkerPoolState) (p : CoapPacket)
    (hfresh : ∀ w ∈ st.workers, w.wid < st.nextWid) :
    (qualifyingWorkers st ≠ [] →
      (choose_worker st).2 = st ∧
      (choose_worker st).1 ∈ qualifyingWorkers st ∧
      ∀ w ∈ qualifyingWorkers st,
        (choose_worker st).1.get_queue_size ≤ w.get_queue_size) ∧
    (qualifyingWorkers st = [] →
      (choose_worker st).1 = ⟨st.nextWid, [], true, 0⟩ ∧
      (choose_worker st).1.started = true ∧
      (choose_worker st).2.workers = st.workers ++ [(choose_worker st).1] ∧
      (choose_and_submit st p).2.workers
        = st.workers ++ [⟨st.nextWid, [p], true, 0⟩]) := by
  have hmatch : choose_worker st =
      (match qualifyingWorkers st with
       | [] => create_worker st
       | x :: xs => (pyMinByQueue x xs, st)) := rfl
  constructor
  · intro hne
    obtain ⟨x, xs, hcase⟩ : ∃ x xs, qualifyingWorkers st = x :: xs := by
      cases hq : qualifyingWorkers st with
      | nil => exact absurd hq hne
      | cons x xs => exact ⟨x, xs, rfl⟩
    have hcw : choose_worker st = (pyMinByQueue x xs, st) := by
      rw [hmatch, hcase]
    rw [hcw]
    refine ⟨rfl, ?_, ?_⟩
    · rw [hcase]
      rcases pyMinByQueue_mem x xs with h | h
      · rw [h]; exact List.mem_cons_self x xs
      · exact List.mem_cons_of_mem x h
    · intro w hw
      rw [hcase] at hw
      rcases List.mem_cons.mp hw with hwx | hw
      · rw [hwx]; exact (pyMinByQueue_le x xs).1
      · exact (pyMinByQueue_le x xs).2 w hw
  · intro hnil
    have hcw : choose_worker st
        = (⟨st.nextWid, [], true, 0⟩,
          ⟨st.workers ++ [⟨st.nextWid, [], true, 0⟩], st.nextWid + 1⟩) := by
      rw [hmatch, hnil]
      rfl
    have hnotin : ∀ x ∈ st.workers, x ≠ (⟨st.nextWid, [], true, 0⟩ :
        CoapWorker) := by
      intro x hx heq
      have := hfresh x hx
      rw [heq] at this
      exact absurd this (by simp)
    refine ⟨by rw [hcw], by rw [hcw], by rw [hcw], ?_⟩
    unfold choose_and_submit
    rw [hcw]
    simp only
    rw [replaceFirst_append_fresh st.workers _ _ hnotin]
    rfl

/-- C5 witness: with an empty pool no worker qualifies, so a fresh started
worker is appended and receives the task; with a two-worker pool the
least-loaded qualifying worker is chosen and the pool is unchanged. -/
theorem choose_worker_selection_witness :
    (choose_and_submit ⟨[], 0⟩ internalTask).2.workers
      = [⟨0, [internalTask], true, 0⟩] ∧
    (choose_worker ⟨[⟨0, [internalTask, internalTask], true, 0⟩,
        ⟨1, [], true, 0⟩], 2⟩).1 = ⟨1, [], true, 0⟩ ∧
    (choose_worker ⟨[⟨0, [internalTask, internalTask], true, 0⟩,
        ⟨1, [], true, 0⟩], 2⟩).2
      = ⟨[⟨0, [internalTask, internalTask], true, 0⟩, ⟨1, [], true, 0⟩], 2⟩ := by
  have h1 := choose_worker_selection ⟨[], 0⟩ internalTask (by simp)
  have h2 := choose_worker_selection ⟨[⟨0, [internalTask, internalTask],
    true, 0⟩, ⟨1, [], true, 0⟩], 2⟩ internalTask
    (by intro w hw; fin_cases hw <;> decide)
  refine ⟨(h1.2 (by decide)).2.2.2, by decide,
    (h2.1 (by decide)).1⟩

theorem check_idle_pass_stopped (allowed i : Nat) (l : List CoapWorker) :
    ∀ w ∈ (check_idle_pass allowed i l).2,
      allowed < w.get_idle_time ∧ w.started = false := by
  induction i, l using check_idle_pass.induct allowed with
  | case1 i l h w hcond ih =>
    rw [check_idle_pass]
    simp only [dif_pos h, if_pos hcond]
    intro v hv
    rcases List.mem_cons.mp hv with rfl | hv
    · exact ⟨hcond.1, rfl⟩
    · exact ih v hv
  | case2 i l h w hcond ih =>
    rw [check_idle_pass]
    simp only [dif_pos h, if_neg hcond]
    exact ih
  | case3 i l h =>
    rw [check_idle_pass]
    simp only [dif_neg h]
    intro v hv
    cases hv

theorem check_idle_pass_length (allowed i : Nat) (l : List CoapWorker) :
    (check_idle_pass allowed i l).1.length
      + (check_idle_pass allowed i l).2.length = l.length := by
  induction i, l using check_idle_pass.induct allowed with
  | case1 i l h w hcond ih =>
    rw [check_idle_pass]
    simp only [dif_pos h, if_pos hcond, List.length_cons]
    have := List.length_eraseIdx_of_lt h
    omega
  | case2 i l h w hcond ih =>
    rw [check_idle_pass]
    simp only [dif_pos h, if_neg hcond]
    exact ih
  | case3 i l h =>
    rw [check_idle_pass]
    simp only [dif_neg h, List.length_nil]
    omega

theorem check_idle_pass_nonempty (allowed i : Nat) (l : List CoapWorker) :
    1 ≤ l.length → 1 ≤ (check_idle_pass allowed i l).1.length := by
  induction i, l using check_idle_pass.induct allowed with
  | case1 i l h w hcond ih =>
    intro _
    rw [check_idle_pass]
    simp only [dif_pos h, if_pos hcond]
    refine ih ?_
    have := List.length_eraseIdx_of_lt h
    have h2 := hcond.2
    omega
  | case2 i l h w hcond ih =>
    intro hl
    rw [check_idle_pass]
    simp only [dif_pos h, if_neg hcond]
    exact ih hl
  | case3 i l h =>
    intro hl
    rw [check_idle_pass]
    simpa only [dif_neg h] using hl

theorem choose_worker_workers_grow (st : WorkerPoolState) :
    st.workers.length ≤ (choose_worker st).2.workers.length := by
  have hmatch : choose_worker st =
      (match qualifyingWorkers st with
       | [] => create_worker st
       | x :: xs => (pyMinByQueue x xs, st)) := rfl
  rw [hmatch]
  cases qualifyingWorkers st with
  | nil => simp [create_worker]
  | cons x xs => exact le_refl _

theorem applyWorkerOp_preserves (st : WorkerPoolState) (op : WorkerOp)
    (h : 1 ≤ st.workers.length) :
    1 ≤ (applyWorkerOp st op).workers.length := by
  cases op with
  | create => simp [applyWorkerOp, create_worker]
  | chooseAndSubmit p =>
    rcases hcw : choose_worker st with ⟨w, st'⟩
    have hlen : st.workers.length ≤ st'.workers.length := by
      have := choose_worker_workers_grow st
      rw [hcw] at this
      exact this
    simp only [applyWorkerOp, choose_and_submit, hcw]
    rw [replaceFirst_length]
    omega
  | idlePass => exact check_idle_pass_nonempty _ 0 _ h

/-- C6: one pass of the idle-worker lifecycle loop stops exactly the
workers it removes, and it removes a worker only when that worker's idle
time exceeds `allowed_idle_time` (60 s) — every stopped worker satisfies
the idle bound, and remaining plus stopped workers account for the whole
pool; a non-empty pool stays non-empty through the pass, and through every
reachable sequence of worker-list operations the pool keeps at least one
worker once a first worker exists. -/
theorem idle_lifecycle_invariant (l : List CoapWorker)
    (st : WorkerPoolState) (ops : List WorkerOp) :
    (∀ w ∈ (check_idle_pass allowed_idle_time 0 l).2,
      allowed_idle_time < w.get_idle_time ∧ w.started = false) ∧
    ((check_idle_pass allowed_idle_time 0 l).1.length
      + (check_idle_pass allowed_idle_time 0 l).2.length = l.length) ∧
    (1 ≤ l.length → 1 ≤ (check_idle_pass allowed_idle_time 0 l).1.length) ∧
    (1 ≤ st.workers.length →
      1 ≤ (applyWorkerOps st ops).workers.length) := by
  refine ⟨check_idle_pass_stopped _ 0 l, check_idle_pass_length _ 0 l,
    check_idle_pass_nonempty _ 0 l, ?_⟩
  suffices hgen : ∀ (ops : List WorkerOp) (st : WorkerPoolState),
      1 ≤ st.workers.length →
      1 ≤ (applyWorkerOps st ops).workers.length from hgen ops st
  intro ops
  induction ops with
  | nil => intro st h; exact h
  | cons op rest ih =>
    intro st h
    exact ih (applyWorkerOp st op) (applyWorkerOp_preserves st op h)

/-- C6 witness: with one worker idle for 100 s and one fresh worker, the
pass removes and stops exactly the idle one; a single-worker pool survives
an idle pass even when that worker is over the idle bound. -/
theorem idle_lifecycle_invariant_witness :
    (check_idle_pass allowed_idle_time 0
      [⟨0, [], true, 100⟩, ⟨1, [], true, 0⟩])
      = ([⟨1, [], true, 0⟩], [⟨0, [], false, 100⟩]) ∧
    1 ≤ (applyWorkerOps ⟨[⟨0, [], true, 100⟩], 1⟩
      [.idlePass]).workers.length := by
  have h := idle_lifecycle_invariant [⟨0, [], true, 100⟩, ⟨1, [], true, 0⟩]
    ⟨[⟨0, [], true, 100⟩], 1⟩ [.idlePass]
  refine ⟨?_, h.2.2.2 (by decide)⟩
  simp [check_idle_pass, allowed_idle_time, CoapWorker.get_idle_time,
    CoapWorker.stop]

theorem run_internal_tokens (now : Nat) (tasks : List CoapPacket) :
    ∀ st : InternalState, (run_internal_tasks st now tasks).2
      = (List.range tasks.length).map
          (fun i : Nat => int_to_bytes (st.currentToken + 1 + (i : Int))) := by
  induction tasks with
  | nil => intro st; rfl
  | cons t ts ih =>
    intro st
    have hfun : (fun i : Nat =>
        int_to_bytes (st.currentToken + 1 + 1 + (i : Int)))
        = (fun i : Nat =>
          int_to_bytes (st.currentToken + 1 + ((Nat.succ i : Nat) : Int))) := by
      funext i
      congr 1
      push_cast
      ring
    simp only [run_internal_tasks, handle_internal_task, gen_token]
    cases htok : int_to_bytes (st.currentToken + 1) with
    | none =>
      simp only [htok]
      rw [ih]
      simp only [List.length_cons, List.range_succ_eq_map, List.map_cons,
        List.map_map, List.cons.injEq]
      refine ⟨by simpa using htok.symm, ?_⟩
      rw [hfun]
      rfl
    | some tok =>
      simp only [htok]
      rw [ih]
      simp only [List.length_cons, List.range_succ_eq_map, List.map_cons,
        List.map_map, List.cons.injEq]
      refine ⟨by simpa using htok.symm, ?_⟩
      rw [hfun]
      rfl

set_option maxRecDepth 4000 in
/-- C7 counterexample: the claim fails for sequences longer than 256
tasks: starting from the initial counter −1, the 257th internally
initiated task drives the counter to 256, `int.to_bytes()` raises
`OverflowError`, and no token is assigned to that task (while the claim
universally promises a token per task). -/
theorem token_overflow_counterexample :
    ((run_internal_tasks ⟨INITIAL_TOKEN, ⟨[], 0⟩, CoapTransactionPool.empty⟩
        0 (List.replicate 257 internalTask)).2.length = 257) ∧
    ((run_internal_tasks ⟨INITIAL_TOKEN, ⟨[], 0⟩, CoapTransactionPool.empty⟩
        0 (List.replicate 257 internalTask)).2.getLast? = some none) := by
  have h := run_internal_tokens 0 (List.replicate 257 internalTask)
    ⟨INITIAL_TOKEN, ⟨[], 0⟩, CoapTransactionPool.empty⟩
  rw [h]
  constructor
  · simp
  · decide

/-- C7 (amended): for every sequence of at most 256 internally initiated
tasks, `handle_internal_task` assigns each task a 1-byte token from the
single monotonically increasing counter — the k-th task gets token byte
k−1 — so successive tokens are strictly increasing as integers and unique
across all concurrent transactions (hence per peer); moreover every
successful call records the token on the task before the task is added to
the transaction pool. -/
theorem token_generation_monotone (now : Nat) (wp : WorkerPoolState)
    (pool : CoapTransactionPool) (tasks : List CoapPacket)
    (hlen : tasks.length ≤ 256) :
    ((run_internal_tasks ⟨INITIAL_TOKEN, wp, pool⟩ now tasks).2
      = (List.range tasks.length).map (fun i => some [i])) ∧
    List.Pairwise (fun a b : Option (List Nat) =>
      ∀ x ∈ a, ∀ y ∈ b, byteValue x < byteValue y)
      (run_internal_tasks ⟨INITIAL_TOKEN, wp, pool⟩ now tasks).2 ∧
    (∀ (st st' : InternalState) (task task' : CoapPacket),
      handle_internal_task st now task = some (st', task') →
      int_to_bytes (st.currentToken + 1) = some task'.token ∧
      st'.transactionPool
        = st.transactionPool.add_transaction now
            { task with token := task'.token }) := by
  have hmain : (run_internal_tasks ⟨INITIAL_TOKEN, wp, pool⟩ now tasks).2
      = (List.range tasks.length).map (fun i => some [i]) := by
    rw [run_internal_tokens]
    refine List.map_congr_left ?_
    intro i hi
    have hi' : i < 256 := lt_of_lt_of_le (List.mem_range.mp hi) hlen
    show int_to_bytes (INITIAL_TOKEN + 1 + (i : Int)) = some [i]
    have harg : INITIAL_TOKEN + 1 + (i : Int) = (i : Int) := by
      unfold INITIAL_TOKEN; ring
    rw [harg]
    unfold int_to_bytes
    rw [if_pos ⟨Int.ofNat_nonneg i, by exact_mod_cast hi'⟩]
    simp
  refine ⟨hmain, ?_, ?_⟩
  · rw [hmain]
    rw [List.pairwise_map]
    refine List.Pairwise.imp ?_ (List.pairwise_lt_range tasks.length)
    intro i j hij x hx y hy
    simp only [Option.mem_def, Option.some.injEq] at hx hy
    subst hx
    subst hy
    simpa [byteValue] using hij
  · intro st st' task task' h
    simp only [handle_internal_task, gen_token] at h
    cases htok : int_to_bytes (st.currentToken + 1) with
    | none =>
      rw [htok] at h
      simp at h
    | some tok =>
      rw [htok] at h
      simp only [Option.some.injEq, Prod.mk.injEq] at h
      obtain ⟨ha, hb⟩ := h
      subst ha
      subst hb
      exact ⟨rfl, rfl⟩

/-- C7 witness: two internally initiated tasks receive the tokens 0x00
and 0x01 in order. -/
theorem token_generation_monotone_witness :
    (run_internal_tasks ⟨INITIAL_TOKEN, ⟨[], 0⟩, CoapTransactionPool.empty⟩
      0 [internalTask, internalTask]).2 = [some [0], some [1]] := by
  have h := token_generation_monotone 0 ⟨[], 0⟩ CoapTransactionPool.empty
    [internalTask, internalTask] (by decide)
  rw [h.1]
  decide

theorem list_contains_iff {α : Type} [BEq α] [LawfulBEq α] (l : List α)
    (a : α) : l.contains a = true ↔ a ∈ l :=
  List.elem_iff

theorem solve_one_preserves (now : Nat) (g : GeneralId)
    (acc : CoapTransactionPool × List CoapPacket) (t : CoapTransaction)
    (hacc1 : no_live_work acc.1 g)
    (hacc2 : ∀ q ∈ acc.2, q.general_work_id ≠ g)
    (ht : t.packet.general_work_id ≠ g) :
    no_live_work (CoapTransactionPool.solve_one now acc t).1 g ∧
    ∀ q ∈ (CoapTransactionPool.solve_one now acc t).2,
      q.general_work_id ≠ g := by
  unfold CoapTransactionPool.solve_one
  split
  · split
    · constructor
      · intro tr htr
        rcases List.mem_append.mp htr with hmem | hmem
        · exact hacc1 tr hmem
        · rw [List.mem_singleton.mp hmem]
          exact ht
      · intro q hq
        rcases List.mem_append.mp hq with hmem | hmem
        · exact hacc2 q hmem
        · rw [List.mem_singleton.mp hmem]
          exact ht
    · constructor
      · intro tr htr
        simp only [CoapTransactionPool.set_overall_transaction_failure] at htr
        exact hacc1 tr (List.mem_of_mem_filter htr)
      · exact hacc2
  · constructor
    · intro tr htr
      rcases List.mem_append.mp htr with hmem | hmem
      · exact hacc1 tr hmem
      · rw [List.mem_singleton.mp hmem]
        exact ht
    · exact hacc2

theorem solve_fold_preserves (now : Nat) (g : GeneralId) :
    ∀ (ts : List CoapTransaction)
      (acc : CoapTransactionPool × List CoapPacket),
      no_live_work acc.1 g →
      (∀ q ∈ acc.2, q.general_work_id ≠ g) →
      (∀ t ∈ ts, t.packet.general_work_id ≠ g) →
      no_live_work (ts.foldl (CoapTransactionPool.solve_one now) acc).1 g ∧
      ∀ q ∈ (ts.foldl (CoapTransactionPool.solve_one now) acc).2,
        q.general_work_id ≠ g := by
  intro ts
  induction ts with
  | nil => intro acc h1 h2 _; exact ⟨h1, h2⟩
  | cons t rest ih =>
    intro acc h1 h2 h3
    have hone := solve_one_preserves now g acc t h1 h2 (h3 t (by simp))
    exact ih _ hone.1 hone.2 (fun x hx => h3 x (List.mem_cons_of_mem t hx))

theorem solve_transactions_no_work (now : Nat) (g : GeneralId)
    (pool : CoapTransactionPool) (h : no_live_work pool g) :
    no_live_work (CoapTransactionPool.solve_transactions now pool).1 g ∧
    ∀ q ∈ (CoapTransactionPool.solve_transactions now pool).2,
      q.general_work_id ≠ g := by
  unfold CoapTransactionPool.solve_transactions
  exact solve_fold_preserves now g pool.transactions _
    (fun t htr => absurd htr (List.not_mem_nil t)) (by simp) h

/-- C8: for a format-valid RST packet the ingress filter emits nothing,
records the failure time in the failed-requests map under the packet's
`general_work_id`, sets the overall-transaction failure flag for that id,
removes the overall transaction, and cancels every live transaction of
that id — so no subsequent `solve_transactions` sweep ever retransmits a
packet sharing that `general_work_id`. -/
theorem rst_marks_and_finishes (st : FilterState) (now : Nat)
    (p : CoapPacket) (hver : verify_format p = true)
    (hrst : p.messageType = CoapType.RST) :
    ((coap_format_filter_step st now p).2 = []) ∧
    ((coap_format_filter_step st now p).1.failedRequests
      = mapInsert st.failedRequests p.general_work_id now) ∧
    ((coap_format_filter_step st now p).1.transactionPool.failedOveralls.contains
      p.general_work_id = true) ∧
    ((coap_format_filter_step st now p).1.transactionPool.overalls.contains
      p.general_work_id = false) ∧
    no_live_work (coap_format_filter_step st now p).1.transactionPool
      p.general_work_id ∧
    (∀ (pool : CoapTransactionPool) (t : Nat),
      no_live_work pool p.general_work_id →
      ∀ q ∈ (CoapTransactionPool.solve_transactions t pool).2,
        q.general_work_id ≠ p.general_work_id) := by
  have hstep : coap_format_filter_step st now p
      = ({ failedRequests := mapInsert st.failedRequests p.general_work_id now,
           transactionPool :=
            (st.transactionPool.set_overall_transaction_failure p
              ).finish_overall_transaction p }, []) := by
    simp [coap_format_filter_step, hver, hrst, CoapType.RST, CoapType.CON,
      CoapType.ACK]
  refine ⟨by rw [hstep], by rw [hstep], ?_, ?_, ?_, ?_⟩
  · rw [hstep]
    simp only [CoapTransactionPool.finish_overall_transaction,
      CoapTransactionPool.set_overall_transaction_failure]
    rw [list_contains_iff]
    by_cases hc : st.transactionPool.failedOveralls.contains
      p.general_work_id
    · rw [if_pos hc]
      exact (list_contains_iff _ _).mp hc
    · rw [if_neg hc]
      simp
  · rw [hstep]
    simp only [CoapTransactionPool.finish_overall_transaction]
    rw [Bool.eq_false_iff]
    intro hcon
    have := (list_contains_iff _ _).mp hcon
    have := List.mem_filter.mp this
    simp at this
  · rw [hstep]
    intro tr htr
    simp only [CoapTransactionPool.finish_overall_transaction,
      CoapTransactionPool.set_overall_transaction_failure] at htr
    have := List.mem_filter.mp htr
    simpa using this.2
  · intro pool t hpool
    exact (solve_transactions_no_work t p.general_work_id pool hpool).2

/-- C8 witness: an RST for token 0x05 from peer 10.0.0.4 clears the live
transaction and overall transaction of its `general_work_id`, records the
failure time, and leaves nothing to retransmit. -/
theorem rst_marks_and_finishes_witness :
    ((coap_format_filter_step
      ⟨⟨[⟨rstPacket, 0, 10, 2⟩], [(("10.0.0.4", 5683), [5])], []⟩, []⟩
      7 rstPacket).1.failedRequests = [((("10.0.0.4", 5683), [5]), 7)]) ∧
    ((coap_format_filter_step
      ⟨⟨[⟨rstPacket, 0, 10, 2⟩], [(("10.0.0.4", 5683), [5])], []⟩, []⟩
      7 rstPacket).1.transactionPool.failedOveralls.contains
        (("10.0.0.4", 5683), [5]) = true) ∧
    ((coap_format_filter_step
      ⟨⟨[⟨rstPacket, 0, 10, 2⟩], [(("10.0.0.4", 5683), [5])], []⟩, []⟩
      7 rstPacket).1.transactionPool.overalls.contains
        (("10.0.0.4", 5683), [5]) = false) ∧
    ((coap_format_filter_step
      ⟨⟨[⟨rstPacket, 0, 10, 2⟩], [(("10.0.0.4", 5683), [5])], []⟩, []⟩
      7 rstPacket).2 = []) := by
  have h := rst_marks_and_finishes
    ⟨⟨[⟨rstPacket, 0, 10, 2⟩], [(("10.0.0.4", 5683), [5])], []⟩, []⟩
    7 rstPacket (by decide) (by decide)
  exact ⟨h.2.1.trans (by decide), h.2.2.1, h.2.2.2.1, h.1⟩

end CoapCore
